import Mathlib

/-!
Shallow embedding of the PSP22 token ledger (`src/data.rs`) from the
Cardinal-Cryptography/PSP22 repository, together with proofs of the
specification claims about it.

Modelling conventions:
* `AccountId` (an opaque, equality-comparable address in ink!) is modelled
  as `Nat`.
* `u128` amounts are modelled as `Nat` together with the explicit bound
  `U128_MAX = 2^128 - 1`; `saturating_add` clamps at `U128_MAX`,
  `saturating_sub` is truncated `Nat` subtraction (which already clamps at
  zero), and `checked_add` fails above `U128_MAX`.
* `ink::storage::Mapping` is modelled as an association list; `insert`
  overwrites the entry for a key, `remove` deletes it, `get` returns the
  stored value as an `Option`.
* Each Rust method taking `&mut self` and returning
  `Result<Vec<PSP22Event>, PSP22Error>` becomes a pure function returning
  the (possibly mutated) state paired with
  `Except PSP22Error (List PSP22Event)`.  On an early `return Err(...)` the
  function returns the state as it is at that point of the Rust code, so
  "no mutation happened before the error" is a theorem, not a definition.
-/

/-- Maximum value of the Rust `u128` type: `2^128 - 1`. -/
def U128_MAX : Nat := 2 ^ 128 - 1

/-- Rust `u128::saturating_add`, clamped at `U128_MAX`. -/
def saturating_add (a b : Nat) : Nat := min (a + b) U128_MAX

/-- Rust `u128::saturating_sub`.  On `Nat` truncated subtraction is already
saturating at zero. -/
def saturating_sub (a b : Nat) : Nat := a - b

/-- Rust `u128::checked_add`: `none` exactly when the sum overflows. -/
def checked_add (a b : Nat) : Option Nat :=
  if a + b ≤ U128_MAX then some (a + b) else none

/-- `ink::storage::Mapping::get`, on the association-list model. -/
def mapGet {K : Type} [DecidableEq K] (k : K) : List (K × Nat) → Option Nat
  | [] => none
  | (k', v) :: rest => if k' = k then some v else mapGet k rest

/-- `ink::storage::Mapping::remove`: deletes every entry stored at `k`
(states reachable from an empty map store each key at most once). -/
def mapRemove {K : Type} [DecidableEq K] (k : K) : List (K × Nat) → List (K × Nat)
  | [] => []
  | (k', v) :: rest =>
      if k' = k then mapRemove k rest else (k', v) :: mapRemove k rest

/-- `ink::storage::Mapping::insert`: overwrites the entry for `k` with `v`. -/
def mapInsert {K : Type} [DecidableEq K] (k : K) (v : Nat) (m : List (K × Nat)) :
    List (K × Nat) :=
  (k, v) :: mapRemove k m

/-- Sum of all values stored in a map (each stored entry counted once). -/
def sumValues {K : Type} : List (K × Nat) → Nat
  | [] => 0
  | (_, v) :: rest => v + sumValues rest

/-- ink! `AccountId`: an opaque equality-comparable address. -/
abbrev AccountId := Nat

/-- `PSP22Error` from `src/errors.rs`. -/
inductive PSP22Error where
  | Custom : String → PSP22Error
  | InsufficientBalance : PSP22Error
  | InsufficientAllowance : PSP22Error
  | ZeroRecipientAddress : PSP22Error
  | ZeroSenderAddress : PSP22Error
  | SafeTransferCheckFailed : String → PSP22Error
deriving DecidableEq, Repr

/-- `Approval` event from `src/events.rs`. -/
structure Approval where
  owner : AccountId
  spender : AccountId
  amount : Nat
deriving DecidableEq, Repr

/-- `Transfer` event from `src/events.rs`. -/
structure Transfer where
  «from» : Option AccountId
  «to» : Option AccountId
  value : Nat
deriving DecidableEq, Repr

/-- `PSP22Event` wrapper enum from `src/data.rs`. -/
inductive PSP22Event where
  | Transfer : Transfer → PSP22Event
  | Approval : Approval → PSP22Event
deriving DecidableEq, Repr

/-- `approval_event` shortcut from `src/data.rs`. -/
def approval_event (owner spender : AccountId) (amount : Nat) : PSP22Event :=
  PSP22Event.Approval ⟨owner, spender, amount⟩

/-- `transfer_event` shortcut from `src/data.rs`. -/
def transfer_event (f t : Option AccountId) (value : Nat) : PSP22Event :=
  PSP22Event.Transfer ⟨f, t, value⟩

/-- The `PSP22Data` storage struct from `src/data.rs`. -/
structure PSP22Data where
  total_supply : Nat
  balances : List (AccountId × Nat)
  allowances : List ((AccountId × AccountId) × Nat)
deriving DecidableEq, Repr

namespace PSP22Data

/-- `PSP22Data::total_supply`. -/
def total_supply_query (d : PSP22Data) : Nat := d.total_supply

/-- `PSP22Data::balance_of`: stored balance or 0 if absent. -/
def balance_of (d : PSP22Data) (owner : AccountId) : Nat :=
  (mapGet owner d.balances).getD 0

/-- `PSP22Data::allowance`: stored allowance or 0 if absent. -/
def allowance (d : PSP22Data) (owner spender : AccountId) : Nat :=
  (mapGet (owner, spender) d.allowances).getD 0

/-- `PSP22Data::transfer`. -/
def transfer (d : PSP22Data) (caller «to» : AccountId) (value : Nat) :
    PSP22Data × Except PSP22Error (List PSP22Event) :=
  if caller = «to» ∨ value = 0 then (d, .ok [])
  else
    let from_balance := d.balance_of caller
    if from_balance < value then (d, .error .InsufficientBalance)
    else
      let d := { d with balances :=
        (if from_balance = value then mapRemove caller d.balances
         else mapInsert caller (saturating_sub from_balance value) d.balances) }
      let to_balance := d.balance_of «to»
      let d := { d with balances :=
        (mapInsert «to» (saturating_add to_balance value) d.balances) }
      (d, .ok [transfer_event (some caller) (some «to») value])

/-- `PSP22Data::transfer_from`. -/
def transfer_from (d : PSP22Data) (caller «from» «to» : AccountId) (value : Nat) :
    PSP22Data × Except PSP22Error (List PSP22Event) :=
  if «from» = «to» ∨ value = 0 then (d, .ok [])
  else if caller = «from» then d.transfer caller «to» value
  else
    let al := d.allowance «from» caller
    if al < value then (d, .error .InsufficientAllowance)
    else
      let from_balance := d.balance_of «from»
      if from_balance < value then (d, .error .InsufficientBalance)
      else
        let d := { d with allowances :=
          (if al = value then mapRemove («from», caller) d.allowances
           else mapInsert («from», caller) (saturating_sub al value) d.allowances) }
        let d := { d with balances :=
          (if from_balance = value then mapRemove «from» d.balances
           else mapInsert «from» (saturating_sub from_balance value) d.balances) }
        let to_balance := d.balance_of «to»
        let d := { d with balances :=
          (mapInsert «to» (saturating_add to_balance value) d.balances) }
        (d, .ok [approval_event «from» caller (saturating_sub al value),
                 transfer_event (some «from») (some «to») value])

/-- `PSP22Data::approve`. -/
def approve (d : PSP22Data) (owner spender : AccountId) (value : Nat) :
    PSP22Data × Except PSP22Error (List PSP22Event) :=
  if owner = spender then (d, .ok [])
  else
    let d := { d with allowances :=
      (if value = 0 then mapRemove (owner, spender) d.allowances
       else mapInsert (owner, spender) value d.allowances) }
    (d, .ok [approval_event owner spender value])

/-- `PSP22Data::increase_allowance`. -/
def increase_allowance (d : PSP22Data) (owner spender : AccountId)
    (delta_value : Nat) : PSP22Data × Except PSP22Error (List PSP22Event) :=
  if owner = spender ∨ delta_value = 0 then (d, .ok [])
  else
    let al := d.allowance owner spender
    let amount := saturating_add al delta_value
    let d := { d with allowances := mapInsert (owner, spender) amount d.allowances }
    (d, .ok [approval_event owner spender amount])

/-- `PSP22Data::decrease_allowance`. -/
def decrease_allowance (d : PSP22Data) (owner spender : AccountId)
    (delta_value : Nat) : PSP22Data × Except PSP22Error (List PSP22Event) :=
  if owner = spender ∨ delta_value = 0 then (d, .ok [])
  else
    let al := d.allowance owner spender
    if al < delta_value then (d, .error .InsufficientAllowance)
    else
      let amount := saturating_sub al delta_value
      let d := { d with allowances :=
        (if amount = 0 then mapRemove (owner, spender) d.allowances
         else mapInsert (owner, spender) amount d.allowances) }
      (d, .ok [approval_event owner spender amount])

/-- The custom error message used by `PSP22Data::mint` on supply overflow. -/
def maxSupplyExceededMsg : String :=
  "Max PSP22 supply exceeded. Max supply limited to 2^128-1."

/-- `PSP22Data::mint`. -/
def mint (d : PSP22Data) («to» : AccountId) (value : Nat) :
    PSP22Data × Except PSP22Error (List PSP22Event) :=
  if value = 0 then (d, .ok [])
  else
    match checked_add d.total_supply value with
    | none => (d, .error (.Custom maxSupplyExceededMsg))
    | some new_supply =>
      let d := { d with total_supply := new_supply }
      let new_balance := saturating_add (d.balance_of «to») value
      let d := { d with balances := mapInsert «to» new_balance d.balances }
      (d, .ok [transfer_event none (some «to») value])

/-- `PSP22Data::burn`. -/
def burn (d : PSP22Data) («from» : AccountId) (value : Nat) :
    PSP22Data × Except PSP22Error (List PSP22Event) :=
  if value = 0 then (d, .ok [])
  else
    let balance := d.balance_of «from»
    if balance < value then (d, .error .InsufficientBalance)
    else
      let d := { d with balances :=
        (if balance = value then mapRemove «from» d.balances
         else mapInsert «from» (saturating_sub balance value) d.balances) }
      let d := { d with total_supply := saturating_sub d.total_supply value }
      (d, .ok [transfer_event (some «from») none value])

/-- `PSP22Data::burn_from`. -/
def burn_from (d : PSP22Data) (caller «from» : AccountId) (value : Nat) :
    PSP22Data × Except PSP22Error (List PSP22Event) :=
  if value = 0 then (d, .ok [])
  else
    let al := d.allowance «from» caller
    if al < value then (d, .error .InsufficientAllowance)
    else
      let balance := d.balance_of «from»
      if balance < value then (d, .error .InsufficientBalance)
      else
        let d := { d with allowances :=
          (if al = value then mapRemove («from», caller) d.allowances
           else mapInsert («from», caller) (saturating_sub al value) d.allowances) }
        let d := { d with balances :=
          (if balance = value then mapRemove «from» d.balances
           else mapInsert «from» (saturating_sub balance value) d.balances) }
        let d := { d with total_supply := saturating_sub d.total_supply value }
        (d, .ok [PSP22Event.Transfer ⟨some «from», none, value⟩])

/-- The `Default::default()` value of `PSP22Data`: empty ledger. -/
def emptyData : PSP22Data := ⟨0, [], []⟩

/-- `PSP22Data::new`: mints `supply` to `creator` on an empty ledger.  The
Rust code `unwrap`s the result of `mint`; the panic branch (impossible for a
`u128` supply, since `checked_add 0 supply` succeeds) is modelled as
returning the untouched state with no events. -/
def new (supply : Nat) (creator : AccountId) : PSP22Data × List PSP22Event :=
  match emptyData.mint creator supply with
  | (d, .ok events) => (d, events)
  | (d, .error _) => (d, [])

end PSP22Data

/-- One mutating PSP22 operation together with its arguments. -/
inductive Op where
  | transfer (caller «to» : AccountId) (value : Nat)
  | transfer_from (caller «from» «to» : AccountId) (value : Nat)
  | approve (owner spender : AccountId) (value : Nat)
  | increase_allowance (owner spender : AccountId) (delta_value : Nat)
  | decrease_allowance (owner spender : AccountId) (delta_value : Nat)
  | mint («to» : AccountId) (value : Nat)
  | burn («from» : AccountId) (value : Nat)
  | burn_from (caller «from» : AccountId) (value : Nat)
deriving DecidableEq, Repr

/-- Dispatch one operation to the corresponding `PSP22Data` method. -/
def applyOp (d : PSP22Data) : Op → PSP22Data × Except PSP22Error (List PSP22Event)
  | .transfer caller «to» value => d.transfer caller «to» value
  | .transfer_from caller f «to» value => d.transfer_from caller f «to» value
  | .approve owner spender value => d.approve owner spender value
  | .increase_allowance owner spender dv => d.increase_allowance owner spender dv
  | .decrease_allowance owner spender dv => d.decrease_allowance owner spender dv
  | .mint «to» value => d.mint «to» value
  | .burn f value => d.burn f value
  | .burn_from caller f value => d.burn_from caller f value

/-- The ledger state after one operation (on `Err` the state component
returned by the operation, which C2 proves equals the input state). -/
def step (d : PSP22Data) (op : Op) : PSP22Data := (applyOp d op).1

/-- The ledger state after a sequence of operations. -/
def execOps (d : PSP22Data) : List Op → PSP22Data
  | [] => d
  | op :: ops => execOps (step d op) ops

/-- Keys of a map are pairwise distinct. -/
def keysNodup {K : Type} (m : List (K × Nat)) : Prop :=
  (m.map Prod.fst).Nodup

/-- No entry of the map stores the value 0 (the sparse-map convention). -/
def noZeros {K : Type} (m : List (K × Nat)) : Prop :=
  ∀ p ∈ m, p.2 ≠ 0

instance {K : Type} [DecidableEq K] (m : List (K × Nat)) : Decidable (keysNodup m) := by
  unfold keysNodup; infer_instance

instance {K : Type} (m : List (K × Nat)) : Decidable (noZeros m) := by
  unfold noZeros; infer_instance

/-- The well-formedness invariant of a `PSP22Data` state: maps store each key
once and never store 0, the total supply equals the sum of all balances and
fits in a `u128`. -/
def GoodLedger (d : PSP22Data) : Prop :=
  keysNodup d.balances ∧ keysNodup d.allowances ∧
  noZeros d.balances ∧ noZeros d.allowances ∧
  sumValues d.balances = d.total_supply ∧ d.total_supply ≤ U128_MAX

instance (d : PSP22Data) : Decidable (GoodLedger d) := by
  unfold GoodLedger; infer_instance

section MapLemmas

variable {K : Type} [DecidableEq K]

theorem mapGet_mapRemove_self (k : K) (m : List (K × Nat)) :
    mapGet k (mapRemove k m) = none := by
  induction m with
  | nil => rfl
  | cons p rest ih =>
    obtain ⟨k', v⟩ := p
    by_cases h : k' = k
    · simpa [mapRemove, h] using ih
    · simp [mapRemove, mapGet, h, ih]

theorem mapGet_mapRemove_ne (k k' : K) (m : List (K × Nat)) (h : k ≠ k') :
    mapGet k (mapRemove k' m) = mapGet k m := by
  induction m with
  | nil => rfl
  | cons p rest ih =>
    obtain ⟨k'', v⟩ := p
    by_cases h2 : k'' = k'
    · have hk : k'' ≠ k := by rintro rfl; exact h h2
      simp [mapRemove, mapGet, h2, hk, Ne.symm h, ih]
    · by_cases h3 : k'' = k <;>
        simp [mapRemove, mapGet, h2, h3, h, Ne.symm h, ih]

theorem mapGet_mapInsert_self (k : K) (v : Nat) (m : List (K × Nat)) :
    mapGet k (mapInsert k v m) = some v := by
  simp [mapInsert, mapGet]

theorem mapGet_mapInsert_ne (k k' : K) (v : Nat) (m : List (K × Nat)) (h : k ≠ k') :
    mapGet k (mapInsert k' v m) = mapGet k m := by
  have : k' ≠ k := fun e => h e.symm
  simp [mapInsert, mapGet, this, mapGet_mapRemove_ne k k' m h]

theorem mem_keys_of_mem_keys_mapRemove (k a : K) (m : List (K × Nat))
    (h : a ∈ (mapRemove k m).map Prod.fst) : a ∈ m.map Prod.fst := by
  induction m with
  | nil => simp [mapRemove] at h
  | cons p rest ih =>
    obtain ⟨k', v⟩ := p
    by_cases h2 : k' = k
    · simp only [mapRemove, if_pos h2] at h
      simp [ih h]
    · simp only [mapRemove, if_neg h2, List.map_cons, List.mem_cons] at h
      rcases h with h | h
      · simp [h]
      · simp [ih h]

theorem not_mem_keys_mapRemove_self (k : K) (m : List (K × Nat)) :
    k ∉ (mapRemove k m).map Prod.fst := by
  induction m with
  | nil => simp [mapRemove]
  | cons p rest ih =>
    obtain ⟨k', v⟩ := p
    by_cases h2 : k' = k
    · simpa [mapRemove, h2] using ih
    · simp only [mapRemove, if_neg h2, List.map_cons, List.mem_cons]
      push_neg
      exact ⟨fun e => h2 e.symm, ih⟩

theorem keysNodup_mapRemove (k : K) (m : List (K × Nat)) (h : keysNodup m) :
    keysNodup (mapRemove k m) := by
  induction m with
  | nil => simpa [mapRemove] using h
  | cons p rest ih =>
    obtain ⟨k', v⟩ := p
    simp only [keysNodup, List.map_cons, List.nodup_cons] at h
    by_cases h2 : k' = k
    · simpa [keysNodup, mapRemove, h2] using ih h.2
    · simp only [keysNodup, mapRemove, if_neg h2, List.map_cons, List.nodup_cons]
      exact ⟨fun hm => h.1 (mem_keys_of_mem_keys_mapRemove k k' rest hm), ih h.2⟩

theorem keysNodup_mapInsert (k : K) (v : Nat) (m : List (K × Nat)) (h : keysNodup m) :
    keysNodup (mapInsert k v m) := by
  simp only [keysNodup, mapInsert, List.map_cons, List.nodup_cons]
  exact ⟨not_mem_keys_mapRemove_self k m, keysNodup_mapRemove k m h⟩

theorem noZeros_mapRemove (k : K) (m : List (K × Nat)) (h : noZeros m) :
    noZeros (mapRemove k m) := by
  induction m with
  | nil => simpa [mapRemove] using h
  | cons p rest ih =>
    obtain ⟨k', v⟩ := p
    simp only [noZeros, List.mem_cons] at h
    have hrest : noZeros rest := fun q hq => h q (Or.inr hq)
    by_cases h2 : k' = k
    · simpa [mapRemove, h2] using ih hrest
    · intro q hq
      simp only [mapRemove, if_neg h2, List.mem_cons] at hq
      rcases hq with hq | hq
      · exact hq ▸ h (k', v) (Or.inl rfl)
      · exact ih hrest q hq

theorem noZeros_mapInsert (k : K) (v : Nat) (m : List (K × Nat))
    (h : noZeros m) (hv : v ≠ 0) : noZeros (mapInsert k v m) := by
  intro q hq
  simp only [mapInsert, List.mem_cons] at hq
  rcases hq with hq | hq
  · simpa [hq] using hv
  · exact noZeros_mapRemove k m h q hq

theorem mapRemove_eq_of_not_mem (k : K) (m : List (K × Nat))
    (h : k ∉ m.map Prod.fst) : mapRemove k m = m := by
  induction m with
  | nil => rfl
  | cons p rest ih =>
    obtain ⟨k', v⟩ := p
    simp only [List.map_cons, List.mem_cons] at h
    push_neg at h
    have : k' ≠ k := fun e => h.1 e.symm
    simp [mapRemove, this, ih h.2]

theorem sumValues_mapRemove (k : K) (m : List (K × Nat)) (h : keysNodup m) :
    sumValues (mapRemove k m) + (mapGet k m).getD 0 = sumValues m := by
  induction m with
  | nil => rfl
  | cons p rest ih =>
    obtain ⟨k', v⟩ := p
    simp only [keysNodup, List.map_cons, List.nodup_cons] at h
    by_cases h2 : k' = k
    · subst h2
      have : mapRemove k' rest = rest := mapRemove_eq_of_not_mem k' rest h.1
      simp [mapRemove, mapGet, this, sumValues, Nat.add_comm]
    · have := ih h.2
      simp only [mapRemove, if_neg h2, mapGet, if_neg h2, sumValues]
      omega

theorem sumValues_mapInsert (k : K) (v : Nat) (m : List (K × Nat)) :
    sumValues (mapInsert k v m) = v + sumValues (mapRemove k m) := rfl

theorem getD_le_sumValues (k : K) (m : List (K × Nat)) (h : keysNodup m) :
    (mapGet k m).getD 0 ≤ sumValues m := by
  have := sumValues_mapRemove k m h
  omega

end MapLemmas

section PatternLemmas

variable {K : Type} [DecidableEq K]

/-- Debiting `v` from the entry at `c` (removing it when it reaches 0)
preserves key-distinctness, the no-zero convention, decreases the value sum
by exactly `v`, and leaves every other key unchanged. -/
theorem debit_good (m m1 : List (K × Nat)) (c : K) (v : Nat)
    (hn : keysNodup m) (hz : noZeros m)
    (hv : v ≤ (mapGet c m).getD 0)
    (hm1 : m1 = if (mapGet c m).getD 0 = v then mapRemove c m
                else mapInsert c (saturating_sub ((mapGet c m).getD 0) v) m) :
    keysNodup m1 ∧ noZeros m1 ∧ sumValues m1 + v = sumValues m ∧
    (∀ k, k ≠ c → mapGet k m1 = mapGet k m) := by
  have hrem := sumValues_mapRemove c m hn
  by_cases hc : (mapGet c m).getD 0 = v
  · subst hm1
    rw [if_pos hc]
    refine ⟨keysNodup_mapRemove c m hn, noZeros_mapRemove c m hz, by omega,
      fun k hk => mapGet_mapRemove_ne k c m hk⟩
  · subst hm1
    rw [if_neg hc]
    refine ⟨keysNodup_mapInsert _ _ m hn,
      noZeros_mapInsert _ _ m hz (by simp only [saturating_sub]; omega),
      ?_, fun k hk => mapGet_mapInsert_ne k c _ m hk⟩
    rw [sumValues_mapInsert]
    simp only [saturating_sub]
    omega

/-- Crediting `v` to the entry at `t` (with a saturating add that, under the
stated bound, does not saturate) preserves key-distinctness and the no-zero
convention, increases the value sum by exactly `v`, leaves every other key
unchanged, and stores exactly the old value plus `v` at `t`. -/
theorem credit_good (m m2 : List (K × Nat)) (t : K) (v : Nat)
    (hn : keysNodup m) (hz : noZeros m) (hv0 : v ≠ 0)
    (hbound : (mapGet t m).getD 0 + v ≤ U128_MAX)
    (hm2 : m2 = mapInsert t (saturating_add ((mapGet t m).getD 0) v) m) :
    keysNodup m2 ∧ noZeros m2 ∧ sumValues m2 = sumValues m + v ∧
    (∀ k, k ≠ t → mapGet k m2 = mapGet k m) ∧
    mapGet t m2 = some ((mapGet t m).getD 0 + v) := by
  have hrem := sumValues_mapRemove t m hn
  have hsat : saturating_add ((mapGet t m).getD 0) v = (mapGet t m).getD 0 + v := by
    simp only [saturating_add]
    omega
  subst hm2
  rw [hsat]
  refine ⟨keysNodup_mapInsert _ _ m hn,
    noZeros_mapInsert _ _ m hz (by omega),
    ?_, fun k hk => mapGet_mapInsert_ne k t _ m hk,
    mapGet_mapInsert_self t _ m⟩
  rw [sumValues_mapInsert]
  omega

/-- Moving `v` from the entry at `c` to the entry at `t ≠ c` (the successful
`transfer` path) preserves key-distinctness, the no-zero convention and the
value sum, and leaves every key other than `c` and `t` unchanged. -/
theorem move_good (m m1 m2 : List (K × Nat)) (c t : K) (v : Nat)
    (hn : keysNodup m) (hz : noZeros m) (hct : c ≠ t) (hv0 : v ≠ 0)
    (hv : v ≤ (mapGet c m).getD 0) (hbound : sumValues m ≤ U128_MAX)
    (hm1 : m1 = if (mapGet c m).getD 0 = v then mapRemove c m
                else mapInsert c (saturating_sub ((mapGet c m).getD 0) v) m)
    (hm2 : m2 = mapInsert t (saturating_add ((mapGet t m1).getD 0) v) m1) :
    keysNodup m2 ∧ noZeros m2 ∧ sumValues m2 = sumValues m ∧
    (∀ k, k ≠ c → k ≠ t → mapGet k m2 = mapGet k m) ∧
    mapGet t m2 = some ((mapGet t m).getD 0 + v) := by
  obtain ⟨hn1, hz1, hsum1, hframe1⟩ := debit_good m m1 c v hn hz hv hm1
  have htb : mapGet t m1 = mapGet t m := hframe1 t (Ne.symm hct)
  have htle : (mapGet t m1).getD 0 ≤ sumValues m1 := getD_le_sumValues t m1 hn1
  obtain ⟨hn2, hz2, hsum2, hframe2, hget2⟩ :=
    credit_good m1 m2 t v hn1 hz1 hv0 (by omega) hm2
  refine ⟨hn2, hz2, by omega, ?_, ?_⟩
  · intro k hkc hkt
    rw [hframe2 k hkt, hframe1 k hkc]
  · rw [hget2, htb]

end PatternLemmas

/-- `transfer` preserves the ledger invariant. -/
theorem transfer_preserves (d : PSP22Data) (c t : AccountId) (v : Nat)
    (hg : GoodLedger d) : GoodLedger (d.transfer c t v).1 := by
  obtain ⟨hbn, han, hbz, haz, hsum, hle⟩ := hg
  by_cases h1 : c = t ∨ v = 0
  · simp only [PSP22Data.transfer, if_pos h1]
    exact ⟨hbn, han, hbz, haz, hsum, hle⟩
  · by_cases h2 : d.balance_of c < v
    · simp only [PSP22Data.transfer, if_neg h1, if_pos h2]
      exact ⟨hbn, han, hbz, haz, hsum, hle⟩
    · push_neg at h2
      have h1' := h1
      push_neg at h1'
      simp only [PSP22Data.balance_of] at h2
      simp only [PSP22Data.transfer, PSP22Data.balance_of, if_neg h1,
        if_neg (not_lt.mpr h2)]
      obtain ⟨hm2n, hm2z, hm2sum, -, -⟩ :=
        move_good d.balances _ _ c t v hbn hbz h1'.1 h1'.2 h2
          (by omega) rfl rfl
      refine ⟨hm2n, han, hm2z, haz, ?_, hle⟩
      dsimp only
      omega

/-- `approve` preserves the ledger invariant. -/
theorem approve_preserves (d : PSP22Data) (o s : AccountId) (v : Nat)
    (hg : GoodLedger d) : GoodLedger (d.approve o s v).1 := by
  obtain ⟨hbn, han, hbz, haz, hsum, hle⟩ := hg
  by_cases h1 : o = s
  · simp only [PSP22Data.approve, if_pos h1]
    exact ⟨hbn, han, hbz, haz, hsum, hle⟩
  · by_cases h2 : v = 0
    · simp only [PSP22Data.approve, if_neg h1, if_pos h2]
      exact ⟨hbn, keysNodup_mapRemove _ _ han, hbz,
        noZeros_mapRemove _ _ haz, hsum, hle⟩
    · simp only [PSP22Data.approve, if_neg h1, if_neg h2]
      exact ⟨hbn, keysNodup_mapInsert _ _ _ han, hbz,
        noZeros_mapInsert _ _ _ haz h2, hsum, hle⟩

/-- `increase_allowance` preserves the ledger invariant. -/
theorem increase_allowance_preserves (d : PSP22Data) (o s : AccountId) (dv : Nat)
    (hg : GoodLedger d) : GoodLedger (d.increase_allowance o s dv).1 := by
  obtain ⟨hbn, han, hbz, haz, hsum, hle⟩ := hg
  by_cases h1 : o = s ∨ dv = 0
  · simp only [PSP22Data.increase_allowance, if_pos h1]
    exact ⟨hbn, han, hbz, haz, hsum, hle⟩
  · have h1' := h1
    push_neg at h1'
    have hM : 1 ≤ U128_MAX := by decide
    have hpos : saturating_add (d.allowance o s) dv ≠ 0 := by
      have := h1'.2
      simp only [saturating_add]
      omega
    simp only [PSP22Data.increase_allowance, if_neg h1]
    exact ⟨hbn, keysNodup_mapInsert _ _ _ han, hbz,
      noZeros_mapInsert _ _ _ haz hpos, hsum, hle⟩

/-- `decrease_allowance` preserves the ledger invariant. -/
theorem decrease_allowance_preserves (d : PSP22Data) (o s : AccountId) (dv : Nat)
    (hg : GoodLedger d) : GoodLedger (d.decrease_allowance o s dv).1 := by
  obtain ⟨hbn, han, hbz, haz, hsum, hle⟩ := hg
  by_cases h1 : o = s ∨ dv = 0
  · simp only [PSP22Data.decrease_allowance, if_pos h1]
    exact ⟨hbn, han, hbz, haz, hsum, hle⟩
  · by_cases h2 : d.allowance o s < dv
    · simp only [PSP22Data.decrease_allowance, if_neg h1, if_pos h2]
      exact ⟨hbn, han, hbz, haz, hsum, hle⟩
    · simp only [PSP22Data.decrease_allowance, if_neg h1, if_neg h2]
      by_cases h3 : saturating_sub (d.allowance o s) dv = 0
      · simp only [if_pos h3]
        exact ⟨hbn, keysNodup_mapRemove _ _ han, hbz,
          noZeros_mapRemove _ _ haz, hsum, hle⟩
      · simp only [if_neg h3]
        exact ⟨hbn, keysNodup_mapInsert _ _ _ han, hbz,
          noZeros_mapInsert _ _ _ haz h3, hsum, hle⟩

/-- `mint` preserves the ledger invariant. -/
theorem mint_preserves (d : PSP22Data) (t : AccountId) (v : Nat)
    (hg : GoodLedger d) : GoodLedger (d.mint t v).1 := by
  obtain ⟨hbn, han, hbz, haz, hsum, hle⟩ := hg
  by_cases h1 : v = 0
  · simp only [PSP22Data.mint, if_pos h1]
    exact ⟨hbn, han, hbz, haz, hsum, hle⟩
  · simp only [PSP22Data.mint, PSP22Data.balance_of, if_neg h1]
    split
    · exact ⟨hbn, han, hbz, haz, hsum, hle⟩
    · rename_i ns heq
      simp only [checked_add] at heq
      split at heq
      · rename_i hb
        cases heq
        have hget := getD_le_sumValues t d.balances hbn
        obtain ⟨hn2, hz2, hsum2, -, -⟩ :=
          credit_good d.balances _ t v hbn hbz h1 (by omega) rfl
        refine ⟨hn2, han, hz2, haz, ?_, ?_⟩ <;> dsimp only <;> omega
      · cases heq

/-- `burn` preserves the ledger invariant. -/
theorem burn_preserves (d : PSP22Data) (f : AccountId) (v : Nat)
    (hg : GoodLedger d) : GoodLedger (d.burn f v).1 := by
  obtain ⟨hbn, han, hbz, haz, hsum, hle⟩ := hg
  by_cases h1 : v = 0
  · simp only [PSP22Data.burn, if_pos h1]
    exact ⟨hbn, han, hbz, haz, hsum, hle⟩
  · by_cases h2 : d.balance_of f < v
    · simp only [PSP22Data.burn, if_pos h2, if_neg h1]
      exact ⟨hbn, han, hbz, haz, hsum, hle⟩
    · push_neg at h2
      simp only [PSP22Data.balance_of] at h2
      simp only [PSP22Data.burn, PSP22Data.balance_of, if_neg h1,
        if_neg (not_lt.mpr h2)]
      obtain ⟨hn1, hz1, hsum1, -⟩ :=
        debit_good d.balances _ f v hbn hbz h2 rfl
      simp only [saturating_sub] at hsum1
      refine ⟨hn1, han, hz1, haz, ?_, ?_⟩ <;>
        dsimp only <;> simp only [saturating_sub] <;> omega

/-- `burn_from` preserves the ledger invariant. -/
theorem burn_from_preserves (d : PSP22Data) (c f : AccountId) (v : Nat)
    (hg : GoodLedger d) : GoodLedger (d.burn_from c f v).1 := by
  obtain ⟨hbn, han, hbz, haz, hsum, hle⟩ := hg
  by_cases h1 : v = 0
  · simp only [PSP22Data.burn_from, if_pos h1]
    exact ⟨hbn, han, hbz, haz, hsum, hle⟩
  · by_cases h2 : d.allowance f c < v
    · simp only [PSP22Data.burn_from, if_pos h2, if_neg h1]
      exact ⟨hbn, han, hbz, haz, hsum, hle⟩
    · by_cases h3 : d.balance_of f < v
      · simp only [PSP22Data.burn_from, if_neg h1, if_neg h2, if_pos h3]
        exact ⟨hbn, han, hbz, haz, hsum, hle⟩
      · push_neg at h2 h3
        simp only [PSP22Data.allowance] at h2
        simp only [PSP22Data.balance_of] at h3
        simp only [PSP22Data.burn_from, PSP22Data.allowance,
          PSP22Data.balance_of, if_neg h1, if_neg (not_lt.mpr h2),
          if_neg (not_lt.mpr h3)]
        obtain ⟨hna, hza, -, -⟩ :=
          debit_good d.allowances _ (f, c) v han haz h2 rfl
        obtain ⟨hnb, hzb, hsumb, -⟩ :=
          debit_good d.balances _ f v hbn hbz h3 rfl
        simp only [saturating_sub] at hsumb
        refine ⟨hnb, hna, hzb, hza, ?_, ?_⟩ <;>
          dsimp only <;> simp only [saturating_sub] <;> omega

/-- `transfer_from` preserves the ledger invariant. -/
theorem transfer_from_preserves (d : PSP22Data) (c f t : AccountId) (v : Nat)
    (hg : GoodLedger d) : GoodLedger (d.transfer_from c f t v).1 := by
  by_cases h1 : f = t ∨ v = 0
  · simp only [PSP22Data.transfer_from, if_pos h1]
    exact hg
  · by_cases hcf : c = f
    · simp only [PSP22Data.transfer_from, if_neg h1, if_pos hcf]
      exact transfer_preserves d c t v hg
    · obtain ⟨hbn, han, hbz, haz, hsum, hle⟩ := hg
      by_cases h2 : d.allowance f c < v
      · simp only [PSP22Data.transfer_from, if_neg h1, if_neg hcf, if_pos h2]
        exact ⟨hbn, han, hbz, haz, hsum, hle⟩
      · by_cases h3 : d.balance_of f < v
        · simp only [PSP22Data.transfer_from, if_neg h1, if_neg hcf,
            if_neg h2, if_pos h3]
          exact ⟨hbn, han, hbz, haz, hsum, hle⟩
        · have h1' := h1
          push_neg at h1' h2 h3
          simp only [PSP22Data.allowance] at h2
          simp only [PSP22Data.balance_of] at h3
          simp only [PSP22Data.transfer_from, PSP22Data.allowance,
            PSP22Data.balance_of, if_neg h1, if_neg hcf,
            if_neg (not_lt.mpr h2), if_neg (not_lt.mpr h3)]
          obtain ⟨hna, hza, -, -⟩ :=
            debit_good d.allowances _ (f, c) v han haz h2 rfl
          obtain ⟨hn2, hz2, hsum2, -, -⟩ :=
            move_good d.balances _ _ f t v hbn hbz h1'.1 h1'.2 h3
              (by omega) rfl rfl
          refine ⟨hn2, hna, hz2, hza, ?_, hle⟩
          dsimp only
          omega

/-- Every single operation preserves the ledger invariant. -/
theorem step_preserves (d : PSP22Data) (op : Op) (hg : GoodLedger d) :
    GoodLedger (step d op) := by
  cases op with
  | transfer c t v => exact transfer_preserves d c t v hg
  | transfer_from c f t v => exact transfer_from_preserves d c f t v hg
  | approve o s v => exact approve_preserves d o s v hg
  | increase_allowance o s dv => exact increase_allowance_preserves d o s dv hg
  | decrease_allowance o s dv => exact decrease_allowance_preserves d o s dv hg
  | mint t v => exact mint_preserves d t v hg
  | burn f v => exact burn_preserves d f v hg
  | burn_from c f v => exact burn_from_preserves d c f v hg

/-- Every sequence of operations preserves the ledger invariant. -/
theorem execOps_preserves (ops : List Op) (d : PSP22Data) (hg : GoodLedger d) :
    GoodLedger (execOps d ops) := by
  induction ops generalizing d with
  | nil => exact hg
  | cons op ops ih => exact ih (step d op) (step_preserves d op hg)

/-- The empty ledger satisfies the invariant. -/
theorem goodLedger_emptyData : GoodLedger PSP22Data.emptyData := by
  refine ⟨List.nodup_nil, List.nodup_nil, ?_, ?_, rfl, ?_⟩
  · intro p hp; cases hp
  · intro p hp; cases hp
  · exact Nat.zero_le _

/-- The state component of `new` is the state component of `mint` on the
empty ledger, whether or not the mint succeeded. -/
theorem new_fst (supply : Nat) (creator : AccountId) :
    (PSP22Data.new supply creator).1
      = (PSP22Data.emptyData.mint creator supply).1 := by
  unfold PSP22Data.new
  rcases h : PSP22Data.emptyData.mint creator supply with ⟨d, r⟩
  cases r <;> simp

/-- A ledger created by `new` satisfies the invariant. -/
theorem goodLedger_new (supply : Nat) (creator : AccountId) :
    GoodLedger (PSP22Data.new supply creator).1 := by
  rw [new_fst]
  exact mint_preserves PSP22Data.emptyData creator supply goodLedger_emptyData

/-- `transfer` mutates nothing when it returns an error. -/
theorem transfer_error_frame (d : PSP22Data) (c t : AccountId) (v : Nat)
    (e : PSP22Error) (h : (d.transfer c t v).2 = .error e) :
    (d.transfer c t v).1 = d := by
  unfold PSP22Data.transfer at h ⊢
  by_cases h1 : c = t ∨ v = 0
  · rw [if_pos h1] at h
    simp at h
  · by_cases h2 : d.balance_of c < v
    · rw [if_neg h1, if_pos h2]
    · rw [if_neg h1, if_neg h2] at h
      simp at h

/-- `transfer_from` mutates nothing when it returns an error. -/
theorem transfer_from_error_frame (d : PSP22Data) (c f t : AccountId) (v : Nat)
    (e : PSP22Error) (h : (d.transfer_from c f t v).2 = .error e) :
    (d.transfer_from c f t v).1 = d := by
  unfold PSP22Data.transfer_from at h ⊢
  by_cases h1 : f = t ∨ v = 0
  · rw [if_pos h1] at h
    simp at h
  · rw [if_neg h1] at h ⊢
    by_cases hcf : c = f
    · rw [if_pos hcf] at h ⊢
      exact transfer_error_frame d c t v e h
    · rw [if_neg hcf] at h ⊢
      by_cases h2 : d.allowance f c < v
      · rw [if_pos h2]
      · rw [if_neg h2] at h ⊢
        by_cases h3 : d.balance_of f < v
        · rw [if_pos h3]
        · rw [if_neg h3] at h
          simp at h

/-- `approve` mutates nothing when it returns an error (it never errors). -/
theorem approve_error_frame (d : PSP22Data) (o s : AccountId) (v : Nat)
    (e : PSP22Error) (h : (d.approve o s v).2 = .error e) :
    (d.approve o s v).1 = d := by
  unfold PSP22Data.approve at h
  by_cases h1 : o = s
  · rw [if_pos h1] at h
    simp at h
  · rw [if_neg h1] at h
    simp at h

/-- `increase_allowance` mutates nothing when it returns an error (it never
errors). -/
theorem increase_allowance_error_frame (d : PSP22Data) (o s : AccountId)
    (dv : Nat) (e : PSP22Error)
    (h : (d.increase_allowance o s dv).2 = .error e) :
    (d.increase_allowance o s dv).1 = d := by
  unfold PSP22Data.increase_allowance at h
  by_cases h1 : o = s ∨ dv = 0
  · rw [if_pos h1] at h
    simp at h
  · rw [if_neg h1] at h
    simp at h

/-- `decrease_allowance` mutates nothing when it returns an error. -/
theorem decrease_allowance_error_frame (d : PSP22Data) (o s : AccountId)
    (dv : Nat) (e : PSP22Error)
    (h : (d.decrease_allowance o s dv).2 = .error e) :
    (d.decrease_allowance o s dv).1 = d := by
  unfold PSP22Data.decrease_allowance at h ⊢
  by_cases h1 : o = s ∨ dv = 0
  · rw [if_pos h1] at h
    simp at h
  · rw [if_neg h1] at h ⊢
    by_cases h2 : d.allowance o s < dv
    · rw [if_pos h2]
    · rw [if_neg h2] at h
      simp at h

/-- `mint` mutates nothing when it returns an error. -/
theorem mint_error_frame (d : PSP22Data) (t : AccountId) (v : Nat)
    (e : PSP22Error) (h : (d.mint t v).2 = .error e) :
    (d.mint t v).1 = d := by
  unfold PSP22Data.mint at h ⊢
  by_cases h1 : v = 0
  · rw [if_pos h1] at h
    simp at h
  · rw [if_neg h1] at h ⊢
    split
    · rfl
    · rename_i ns heq
      rw [heq] at h
      simp at h

/-- `burn` mutates nothing when it returns an error. -/
theorem burn_error_frame (d : PSP22Data) (f : AccountId) (v : Nat)
    (e : PSP22Error) (h : (d.burn f v).2 = .error e) :
    (d.burn f v).1 = d := by
  unfold PSP22Data.burn at h ⊢
  by_cases h1 : v = 0
  · rw [if_pos h1] at h
    simp at h
  · rw [if_neg h1] at h ⊢
    by_cases h2 : d.balance_of f < v
    · rw [if_pos h2]
    · rw [if_neg h2] at h
      simp at h

/-- `burn_from` mutates nothing when it returns an error. -/
theorem burn_from_error_frame (d : PSP22Data) (c f : AccountId) (v : Nat)
    (e : PSP22Error) (h : (d.burn_from c f v).2 = .error e) :
    (d.burn_from c f v).1 = d := by
  unfold PSP22Data.burn_from at h ⊢
  by_cases h1 : v = 0
  · rw [if_pos h1] at h
    simp at h
  · rw [if_neg h1] at h ⊢
    by_cases h2 : d.allowance f c < v
    · rw [if_pos h2]
    · rw [if_neg h2] at h ⊢
      by_cases h3 : d.balance_of f < v
      · rw [if_pos h3]
      · rw [if_neg h3] at h
        simp at h

/-- Claim C1: for every sequence of mutating operations applied to a ledger
created by `new`, after each operation `total_supply` equals the sum of all
values stored in the balances map. -/
theorem claim_C1_supply_eq_sum (supply : Nat) (creator : AccountId)
    (hs : supply ≤ U128_MAX) (ops : List Op) :
    sumValues (execOps (PSP22Data.new supply creator).1 ops).balances
      = (execOps (PSP22Data.new supply creator).1 ops).total_supply := by
  have hg := execOps_preserves ops (PSP22Data.new supply creator).1
    (goodLedger_new supply creator)
  exact hg.2.2.2.2.1

/-- Witness for C1 at a concrete supply and operation sequence. -/
theorem claim_C1_supply_eq_sum_witness :
    sumValues (execOps (PSP22Data.new 1000 1).1
        [Op.transfer 1 2 100, Op.approve 1 3 50, Op.mint 2 7,
         Op.burn 1 5, Op.transfer_from 3 1 2 20]).balances
      = (execOps (PSP22Data.new 1000 1).1
        [Op.transfer 1 2 100, Op.approve 1 3 50, Op.mint 2 7,
         Op.burn 1 5, Op.transfer_from 3 1 2 20]).total_supply :=
  claim_C1_supply_eq_sum 1000 1 (by decide)
    [Op.transfer 1 2 100, Op.approve 1 3 50, Op.mint 2 7,
     Op.burn 1 5, Op.transfer_from 3 1 2 20]

/-- Claim C2: every mutating operation that returns `Err` leaves the ledger
state exactly as it was before the call, and produces no events (the error
result carries no event list). -/
theorem claim_C2_error_atomicity (d : PSP22Data) (op : Op) (e : PSP22Error)
    (h : (applyOp d op).2 = .error e) :
    (applyOp d op).1 = d ∧ ∀ es : List PSP22Event, (applyOp d op).2 ≠ .ok es := by
  refine ⟨?_, ?_⟩
  · cases op with
    | transfer c t v => exact transfer_error_frame d c t v e h
    | transfer_from c f t v => exact transfer_from_error_frame d c f t v e h
    | approve o s v => exact approve_error_frame d o s v e h
    | increase_allowance o s dv => exact increase_allowance_error_frame d o s dv e h
    | decrease_allowance o s dv => exact decrease_allowance_error_frame d o s dv e h
    | mint t v => exact mint_error_frame d t v e h
    | burn f v => exact burn_error_frame d f v e h
    | burn_from c f v => exact burn_from_error_frame d c f v e h
  · intro es hes
    rw [h] at hes
    exact Except.noConfusion hes

/-- Witness for C2 at a concrete failing transfer. -/
theorem claim_C2_error_atomicity_witness :
    (applyOp PSP22Data.emptyData (Op.transfer 1 2 5)).1 = PSP22Data.emptyData ∧
    ∀ es : List PSP22Event,
      (applyOp PSP22Data.emptyData (Op.transfer 1 2 5)).2 ≠ .ok es :=
  claim_C2_error_atomicity PSP22Data.emptyData (Op.transfer 1 2 5)
    PSP22Error.InsufficientBalance rfl

/-- Claim C3: when the allowance is insufficient, `transfer_from` (with
`caller ≠ from`, `from ≠ to`, `value > 0`) and `burn_from` (with `value > 0`)
report `InsufficientAllowance`, regardless of the balance of `from` (the
balance check runs only after the allowance check succeeds). -/
theorem claim_C3_allowance_checked_first :
    (∀ (d : PSP22Data) (caller f t : AccountId) (v : Nat),
        caller ≠ f → f ≠ t → 0 < v → d.allowance f caller < v →
        (d.transfer_from caller f t v).2
          = .error PSP22Error.InsufficientAllowance) ∧
    (∀ (d : PSP22Data) (caller f : AccountId) (v : Nat),
        0 < v → d.allowance f caller < v →
        (d.burn_from caller f v).2
          = .error PSP22Error.InsufficientAllowance) := by
  constructor
  · intro d c f t v hcf hft hv hal
    unfold PSP22Data.transfer_from
    have h1 : ¬(f = t ∨ v = 0) := by
      push_neg
      exact ⟨hft, by omega⟩
    rw [if_neg h1, if_neg hcf, if_pos hal]
  · intro d c f v hv hal
    unfold PSP22Data.burn_from
    rw [if_neg (by omega : ¬v = 0), if_pos hal]

/-- Witness for C3 on a ledger where both the allowance and the balance of
`from` are insufficient: the reported error is still
`InsufficientAllowance`. -/
theorem claim_C3_allowance_checked_first_witness :
    (PSP22Data.emptyData.transfer_from 1 2 3 5).2
      = .error PSP22Error.InsufficientAllowance ∧
    (PSP22Data.emptyData.burn_from 1 2 5).2
      = .error PSP22Error.InsufficientAllowance :=
  ⟨claim_C3_allowance_checked_first.1 PSP22Data.emptyData 1 2 3 5
      (by decide) (by decide) (by decide) (by decide),
   claim_C3_allowance_checked_first.2 PSP22Data.emptyData 1 2 5
      (by decide) (by decide)⟩

/-- Claim C4: after every sequence of operations on a ledger created by
`new`, no stored balance and no stored allowance is 0. -/
theorem claim_C4_no_zero_entries (supply : Nat) (creator : AccountId)
    (hs : supply ≤ U128_MAX) (ops : List Op) :
    noZeros (execOps (PSP22Data.new supply creator).1 ops).balances ∧
    noZeros (execOps (PSP22Data.new supply creator).1 ops).allowances := by
  have hg := execOps_preserves ops (PSP22Data.new supply creator).1
    (goodLedger_new supply creator)
  exact ⟨hg.2.2.1, hg.2.2.2.1⟩

/-- Witness for C4 at a concrete sequence that drives a balance and an
allowance to exactly 0. -/
theorem claim_C4_no_zero_entries_witness :
    noZeros (execOps (PSP22Data.new 1000 1).1
        [Op.approve 1 2 5, Op.transfer_from 2 1 3 5,
         Op.transfer 1 2 995]).balances ∧
    noZeros (execOps (PSP22Data.new 1000 1).1
        [Op.approve 1 2 5, Op.transfer_from 2 1 3 5,
         Op.transfer 1 2 995]).allowances :=
  claim_C4_no_zero_entries 1000 1 (by decide)
    [Op.approve 1 2 5, Op.transfer_from 2 1 3 5, Op.transfer 1 2 995]

/-- Claim C9: self-transfer and self-approval are no-ops for every amount,
even one exceeding the balance or total supply: they return `Ok` with an
empty event list and leave the whole state unchanged. -/
theorem claim_C9_self_ops_noop (d : PSP22Data) (a b : AccountId) (v : Nat) :
    d.transfer a a v = (d, .ok []) ∧ d.approve b b v = (d, .ok []) := by
  constructor
  · unfold PSP22Data.transfer
    rw [if_pos (Or.inl rfl)]
  · unfold PSP22Data.approve
    rw [if_pos rfl]

/-- Claim C7: a successful `burn_from` with positive value returns exactly
one Transfer event `(from = Some from, to = None, value)` and no Approval
event, even though the allowance entry was decremented. -/
theorem claim_C7_burn_from_events (d : PSP22Data) (c f : AccountId) (v : Nat)
    (es : List PSP22Event) (hv : 0 < v)
    (h : (d.burn_from c f v).2 = .ok es) :
    es = [PSP22Event.Transfer ⟨some f, none, v⟩] ∧
    ∀ a : Approval, PSP22Event.Approval a ∉ es := by
  unfold PSP22Data.burn_from at h
  rw [if_neg (by omega : ¬v = 0)] at h
  by_cases h2 : d.allowance f c < v
  · rw [if_pos h2] at h
    simp at h
  · rw [if_neg h2] at h
    by_cases h3 : d.balance_of f < v
    · rw [if_pos h3] at h
      simp at h
    · rw [if_neg h3] at h
      simp only at h
      cases h
      constructor
      · rfl
      · intro a ha
        simp at ha

/-- Witness for C7 at a concrete successful `burn_from`. -/
theorem claim_C7_burn_from_events_witness :
    [PSP22Event.Transfer ⟨some 2, none, 5⟩]
        = [PSP22Event.Transfer ⟨some 2, none, 5⟩] ∧
    ∀ a : Approval,
      PSP22Event.Approval a ∉ [PSP22Event.Transfer ⟨some 2, none, 5⟩] :=
  claim_C7_burn_from_events (⟨10, [(2, 10)], [((2, 1), 5)]⟩ : PSP22Data) 1 2 5
    [PSP22Event.Transfer ⟨some 2, none, 5⟩] (by decide) rfl

/-- Claim C8: for `v > 0`, `mint(to, v)` fails with the custom max-supply
error exactly when `total_supply + v` exceeds `u128::MAX`, and on that
error the whole state is unchanged. -/
theorem claim_C8_mint_overflow (d : PSP22Data) (t : AccountId) (v : Nat)
    (hv : 0 < v) :
    ((d.mint t v).2
        = .error (.Custom PSP22Data.maxSupplyExceededMsg)
      ↔ U128_MAX < d.total_supply + v) ∧
    (U128_MAX < d.total_supply + v → (d.mint t v).1 = d) := by
  unfold PSP22Data.mint
  rw [if_neg (by omega : ¬v = 0)]
  by_cases h2 : d.total_supply + v ≤ U128_MAX
  · have hca : checked_add d.total_supply v = some (d.total_supply + v) := by
      simp [checked_add, h2]
    rw [hca]
    constructor
    · constructor
      · intro he
        simp at he
      · intro hlt
        omega
    · intro hlt
      omega
  · have hca : checked_add d.total_supply v = none := by
      simp [checked_add, h2]
    rw [hca]
    constructor
    · constructor
      · intro _
        omega
      · intro _
        rfl
    · intro _
      rfl

/-- Witness for C8: minting `u128::MAX` onto a ledger whose total supply is
already positive fails with the custom error and changes nothing. -/
theorem claim_C8_mint_overflow_witness :
    (((⟨1, [(1, 1)], []⟩ : PSP22Data).mint 2 U128_MAX).2
        = .error (.Custom PSP22Data.maxSupplyExceededMsg)
      ↔ U128_MAX < (⟨1, [(1, 1)], []⟩ : PSP22Data).total_supply + U128_MAX) ∧
    (U128_MAX < (⟨1, [(1, 1)], []⟩ : PSP22Data).total_supply + U128_MAX →
      ((⟨1, [(1, 1)], []⟩ : PSP22Data).mint 2 U128_MAX).1
        = (⟨1, [(1, 1)], []⟩ : PSP22Data)) :=
  claim_C8_mint_overflow (⟨1, [(1, 1)], []⟩ : PSP22Data) 2 U128_MAX
    (by decide)

/-- Claim C5 counterexample: as stated, the claim quantifies over every
owner and spender, but `approve` is a no-op when `owner == spender`, so
`approve(1, 1, 5)` followed by `allowance(1, 1)` returns 0, not 5. -/
theorem claim_C5_counterexample :
    ¬ (((PSP22Data.new 1000 1).1.approve 1 1 5).1.allowance 1 1 = 5) := by
  decide

/-- Claim C5 (amended with `owner ≠ spender`, which the no-op rule for
self-approval forces): for distinct owner and spender, `approve(o, s, v)`
followed by `allowance(o, s)` returns `v`, and for `v = 0` the stored entry
is removed (no residual entry). -/
theorem claim_C5_approve_then_allowance (d : PSP22Data) (o s : AccountId)
    (v : Nat) (hos : o ≠ s) :
    (d.approve o s v).1.allowance o s = v ∧
    (v = 0 → mapGet (o, s) (d.approve o s v).1.allowances = none) := by
  unfold PSP22Data.approve PSP22Data.allowance
  rw [if_neg hos]
  dsimp only
  by_cases hv : v = 0
  · rw [if_pos hv, mapGet_mapRemove_self]
    exact ⟨hv.symm, fun _ => rfl⟩
  · rw [if_neg hv, mapGet_mapInsert_self]
    exact ⟨rfl, fun h0 => absurd h0 hv⟩

/-- Witness for the amended C5, in the `v = 0` entry-removal case. -/
theorem claim_C5_approve_then_allowance_witness :
    ((⟨0, [], [((1, 2), 7)]⟩ : PSP22Data).approve 1 2 0).1.allowance 1 2 = 0 ∧
    (0 = 0 → mapGet (1, 2)
        ((⟨0, [], [((1, 2), 7)]⟩ : PSP22Data).approve 1 2 0).1.allowances
      = none) :=
  claim_C5_approve_then_allowance (⟨0, [], [((1, 2), 7)]⟩ : PSP22Data) 1 2 0
    (by decide)

/-- Claim C6 counterexample: with the allowance already at `u128::MAX`,
`increase_allowance(1)` saturates (the stored allowance stays `MAX`), so the
following `decrease_allowance(1)` leaves `MAX - 1`, not the prior `MAX`. -/
theorem claim_C6_counterexample :
    ¬ (((((PSP22Data.new 0 1).1.approve 1 2 U128_MAX).1.increase_allowance
            1 2 1).1.decrease_allowance 1 2 1).1.allowance 1 2
        = ((PSP22Data.new 0 1).1.approve 1 2 U128_MAX).1.allowance 1 2) := by
  decide

/-- Claim C6 (amended with the no-saturation side condition that the
saturating add in `increase_allowance` forces: the prior allowance plus the
delta must not exceed `u128::MAX`): `increase_allowance` then
`decrease_allowance` by the same delta restores the prior allowance value,
leaves balances and total supply unchanged, and emits nothing but (at most
two) Approval events. -/
theorem claim_C6_inc_dec_roundtrip (d : PSP22Data) (o s : AccountId)
    (dv : Nat) (hno : d.allowance o s + dv ≤ U128_MAX) :
    ((d.increase_allowance o s dv).1.decrease_allowance o s dv).1.allowance o s
        = d.allowance o s ∧
    ((d.increase_allowance o s dv).1.decrease_allowance o s dv).1.balances
        = d.balances ∧
    ((d.increase_allowance o s dv).1.decrease_allowance o s dv).1.total_supply
        = d.total_supply ∧
    ∃ es1 es2 : List PSP22Event,
      (d.increase_allowance o s dv).2 = .ok es1 ∧
      ((d.increase_allowance o s dv).1.decrease_allowance o s dv).2 = .ok es2 ∧
      es1.length + es2.length ≤ 2 ∧
      ∀ e ∈ es1 ++ es2, ∃ a : Approval, e = PSP22Event.Approval a := by
  by_cases h1 : o = s ∨ dv = 0
  · have hinc : d.increase_allowance o s dv = (d, .ok []) := by
      simp only [PSP22Data.increase_allowance, if_pos h1]
    have hdec : d.decrease_allowance o s dv = (d, .ok []) := by
      simp only [PSP22Data.decrease_allowance, if_pos h1]
    rw [hinc]
    rw [hdec]
    exact ⟨rfl, rfl, rfl, [], [], rfl, rfl, by decide, by simp⟩
  · have h1' := h1
    push_neg at h1'
    have hsat : saturating_add (d.allowance o s) dv = d.allowance o s + dv := by
      simp only [saturating_add]
      omega
    have hinc : d.increase_allowance o s dv
        = ({ d with allowances :=
              (mapInsert (o, s) (d.allowance o s + dv) d.allowances) },
           .ok [approval_event o s (d.allowance o s + dv)]) := by
      simp only [PSP22Data.increase_allowance, if_neg h1, hsat]
    rw [hinc]
    have hal1 : ({ d with allowances :=
          (mapInsert (o, s) (d.allowance o s + dv) d.allowances) }
            : PSP22Data).allowance o s
        = d.allowance o s + dv := by
      simp only [PSP22Data.allowance]
      rw [mapGet_mapInsert_self]
      rfl
    have hnotlt : ¬ (({ d with allowances :=
          (mapInsert (o, s) (d.allowance o s + dv) d.allowances) }
            : PSP22Data).allowance o s < dv) := by
      rw [hal1]
      omega
    have hsub : saturating_sub (({ d with allowances :=
          (mapInsert (o, s) (d.allowance o s + dv) d.allowances) }
            : PSP22Data).allowance o s) dv
        = d.allowance o s := by
      rw [hal1]
      simp only [saturating_sub]
      omega
    simp only [PSP22Data.decrease_allowance, if_neg h1, if_neg hnotlt, hsub]
    by_cases hz : d.allowance o s = 0
    · rw [if_pos hz]
      refine ⟨?_, by trivial, by trivial,
        [approval_event o s (d.allowance o s + dv)],
        [approval_event o s (d.allowance o s)], by trivial, by trivial,
        by simp, ?_⟩
      · have hz' := hz
        simp only [PSP22Data.allowance] at hz' ⊢
        rw [mapGet_mapRemove_self]
        simpa using hz'.symm
      · intro e he
        simp only [List.mem_append, List.mem_singleton] at he
        rcases he with rfl | rfl
        · exact ⟨_, rfl⟩
        · exact ⟨_, rfl⟩
    · rw [if_neg hz]
      refine ⟨?_, by trivial, by trivial,
        [approval_event o s (d.allowance o s + dv)],
        [approval_event o s (d.allowance o s)], by trivial, by trivial,
        by simp, ?_⟩
      · simp only [PSP22Data.allowance]
        rw [mapGet_mapInsert_self]
        rfl
      · intro e he
        simp only [List.mem_append, List.mem_singleton] at he
        rcases he with rfl | rfl
        · exact ⟨_, rfl⟩
        · exact ⟨_, rfl⟩

/-- Witness for the amended C6 at a concrete state and delta. -/
theorem claim_C6_inc_dec_roundtrip_witness :
    (((⟨0, [], [((1, 2), 40)]⟩ : PSP22Data).increase_allowance
        1 2 10).1.decrease_allowance 1 2 10).1.allowance 1 2
      = (⟨0, [], [((1, 2), 40)]⟩ : PSP22Data).allowance 1 2 ∧
    (((⟨0, [], [((1, 2), 40)]⟩ : PSP22Data).increase_allowance
        1 2 10).1.decrease_allowance 1 2 10).1.balances
      = (⟨0, [], [((1, 2), 40)]⟩ : PSP22Data).balances ∧
    (((⟨0, [], [((1, 2), 40)]⟩ : PSP22Data).increase_allowance
        1 2 10).1.decrease_allowance 1 2 10).1.total_supply
      = (⟨0, [], [((1, 2), 40)]⟩ : PSP22Data).total_supply ∧
    ∃ es1 es2 : List PSP22Event,
      ((⟨0, [], [((1, 2), 40)]⟩ : PSP22Data).increase_allowance 1 2 10).2
        = .ok es1 ∧
      (((⟨0, [], [((1, 2), 40)]⟩ : PSP22Data).increase_allowance
          1 2 10).1.decrease_allowance 1 2 10).2 = .ok es2 ∧
      es1.length + es2.length ≤ 2 ∧
      ∀ e ∈ es1 ++ es2, ∃ a : Approval, e = PSP22Event.Approval a :=
  claim_C6_inc_dec_roundtrip (⟨0, [], [((1, 2), 40)]⟩ : PSP22Data) 1 2 10
    (by decide)

/-- `transfer` never changes the total supply. -/
theorem transfer_total_supply (d : PSP22Data) (c t : AccountId) (v : Nat) :
    (d.transfer c t v).1.total_supply = d.total_supply := by
  unfold PSP22Data.transfer
  by_cases h1 : c = t ∨ v = 0
  · rw [if_pos h1]
  · rw [if_neg h1]
    by_cases h2 : d.balance_of c < v
    · rw [if_pos h2]
    · rw [if_neg h2]

/-- `transfer` never changes the allowances map. -/
theorem transfer_allowances_eq (d : PSP22Data) (c t : AccountId) (v : Nat) :
    (d.transfer c t v).1.allowances = d.allowances := by
  unfold PSP22Data.transfer
  by_cases h1 : c = t ∨ v = 0
  · rw [if_pos h1]
  · rw [if_neg h1]
    by_cases h2 : d.balance_of c < v
    · rw [if_pos h2]
    · rw [if_neg h2]

/-- `transfer` leaves the balance of every account other than the caller and
the recipient unchanged. -/
theorem transfer_balance_frame (d : PSP22Data) (c t a : AccountId) (v : Nat)
    (hac : a ≠ c) (hat : a ≠ t) :
    (d.transfer c t v).1.balance_of a = d.balance_of a := by
  unfold PSP22Data.transfer
  simp only [PSP22Data.balance_of]
  by_cases h1 : c = t ∨ v = 0
  · rw [if_pos h1]
  · rw [if_neg h1]
    by_cases h2 : (mapGet c d.balances).getD 0 < v
    · rw [if_pos h2]
    · rw [if_neg h2]
      dsimp only
      rw [mapGet_mapInsert_ne a t _ _ hat]
      by_cases h3 : (mapGet c d.balances).getD 0 = v
      · rw [if_pos h3, mapGet_mapRemove_ne a c _ hac]
      · rw [if_neg h3, mapGet_mapInsert_ne a c _ _ hac]

/-- `transfer` neither reads nor writes the allowances map: running it with
any substituted allowances map gives the same balances outcome and events,
with that allowances map passed through untouched. -/
theorem transfer_allowances_indep (d : PSP22Data)
    (al : List ((AccountId × AccountId) × Nat)) (c t : AccountId) (v : Nat) :
    ({ d with allowances := al } : PSP22Data).transfer c t v
      = ({ (d.transfer c t v).1 with allowances := al },
         (d.transfer c t v).2) := by
  unfold PSP22Data.transfer
  simp only [PSP22Data.balance_of]
  by_cases h1 : c = t ∨ v = 0
  · simp only [if_pos h1]
  · simp only [if_neg h1]
    by_cases h2 : (mapGet c d.balances).getD 0 < v
    · simp only [if_pos h2]
    · simp only [if_neg h2]

/-- Claim C10: a successful `transfer` keeps `total_supply`, keeps the
balance of every account other than the caller and the recipient, and
neither modifies nor reads the allowances map (the outcome is identical
under any substituted allowances map). -/
theorem claim_C10_transfer_frame (d d' : PSP22Data) (c t : AccountId)
    (v : Nat) (es : List PSP22Event)
    (h : d.transfer c t v = (d', .ok es)) :
    d'.total_supply = d.total_supply ∧
    (∀ a, a ≠ c → a ≠ t → d'.balance_of a = d.balance_of a) ∧
    d'.allowances = d.allowances ∧
    (∀ al, ({ d with allowances := al } : PSP22Data).transfer c t v
        = ({ d' with allowances := al }, .ok es)) := by
  have hd : (d.transfer c t v).1 = d' := by rw [h]
  refine ⟨?_, ?_, ?_, ?_⟩
  · rw [← hd]
    exact transfer_total_supply d c t v
  · intro a hac hat
    rw [← hd]
    exact transfer_balance_frame d c t a v hac hat
  · rw [← hd]
    exact transfer_allowances_eq d c t v
  · intro al
    rw [transfer_allowances_indep d al c t v, h]

/-- Witness for C10 at a concrete successful transfer. -/
theorem claim_C10_transfer_frame_witness :
    (⟨10, [(2, 3), (1, 7)], [((1, 2), 7)]⟩ : PSP22Data).total_supply
        = (⟨10, [(1, 10)], [((1, 2), 7)]⟩ : PSP22Data).total_supply ∧
    (∀ a, a ≠ 1 → a ≠ 2 →
      (⟨10, [(2, 3), (1, 7)], [((1, 2), 7)]⟩ : PSP22Data).balance_of a
        = (⟨10, [(1, 10)], [((1, 2), 7)]⟩ : PSP22Data).balance_of a) ∧
    (⟨10, [(2, 3), (1, 7)], [((1, 2), 7)]⟩ : PSP22Data).allowances
        = (⟨10, [(1, 10)], [((1, 2), 7)]⟩ : PSP22Data).allowances ∧
    (∀ al, ({ (⟨10, [(1, 10)], [((1, 2), 7)]⟩ : PSP22Data) with
          allowances := al } : PSP22Data).transfer 1 2 3
        = ({ (⟨10, [(2, 3), (1, 7)], [((1, 2), 7)]⟩ : PSP22Data) with
            allowances := al },
           .ok [transfer_event (some 1) (some 2) 3])) :=
  claim_C10_transfer_frame (⟨10, [(1, 10)], [((1, 2), 7)]⟩ : PSP22Data)
    (⟨10, [(2, 3), (1, 7)], [((1, 2), 7)]⟩ : PSP22Data) 1 2 3
    [transfer_event (some 1) (some 2) 3] rfl
